import Mathlib

/-!
Verification development for the SDF scene compiler
(`src/sdf_modeler/sdf_ast.rs` and `src/sdf_modeler/wgsl_gen.rs`).

The scene tree (`SdfNode` wrapping one `SdfOp`) and the recursive WGSL code
generator (`WgslGenerator::generate` / `WgslGenerator::emit_expression`) are
embedded shallowly.  Numeric fields, which are `f32` in the Rust source, are
modelled as exact rationals (`ℚ`); the Rust `{:.4}` fixed-point formatting is
modelled by `fmt4` (round half to even at four decimal places, the rounding
Rust's formatter uses), and `rnd4` is the rational value denoted by the text
`fmt4` produces.
-/

attribute [local semireducible] Rat.add Rat.mul Rat.sub Rat.inv Rat.ofScientific

set_option maxRecDepth 16000

namespace SdfGen

/-- A 3-vector of rationals, modelling `[f32; 3]` fields and WGSL `vec3<f32>`
runtime values. -/
def Vec3 : Type := ℚ × ℚ × ℚ

instance : DecidableEq Vec3 := by unfold Vec3; infer_instance

/-- A `(distance, color)` pair, modelling the WGSL `SdfResult` struct
(`dist: f32, color: vec3<f32>`). -/
def SdfResult : Type := ℚ × Vec3

instance : DecidableEq SdfResult := by unfold SdfResult; infer_instance

/-- Round a rational to the nearest integer, ties to even — the rounding used
by Rust's fixed-precision float formatting. -/
def roundHalfEven (x : ℚ) : ℤ :=
  if x - ⌊x⌋ < 1/2 then ⌊x⌋
  else if 1/2 < x - ⌊x⌋ then ⌊x⌋ + 1
  else if 2 ∣ ⌊x⌋ then ⌊x⌋ else ⌊x⌋ + 1

/-- The four decimal digits of `k % 10000`, zero padded to width 4 (the
fractional part printed by `{:.4}`). -/
def digits4 (k : ℕ) : String :=
  String.mk [Nat.digitChar (k / 1000 % 10), Nat.digitChar (k / 100 % 10),
    Nat.digitChar (k / 10 % 10), Nat.digitChar (k % 10)]

/-- `{:.4}` formatting of a nonnegative rational: scale by `10^4`, round half
to even, and print as `<integer part>.<4 fractional digits>`. -/
def fmt4Mag (a : ℚ) : String :=
  let m := (roundHalfEven (a * 10000)).toNat
  Nat.repr (m / 10000) ++ "." ++ digits4 (m % 10000)

/-- Model of Rust `{:.4}` formatting of an `f32` field: sign followed by the
magnitude formatted with exactly four decimal places. -/
def fmt4 (q : ℚ) : String :=
  if q < 0 then "-" ++ fmt4Mag (-q) else fmt4Mag q

/-- The rational value denoted by the text `fmt4 q` (the rounded literal the
generated WGSL actually contains). -/
def rnd4 (q : ℚ) : ℚ :=
  if q < 0 then -(((roundHalfEven (-q * 10000)).toNat : ℚ) / 10000)
  else ((roundHalfEven (q * 10000)).toNat : ℚ) / 10000

/-- `rnd4` applied to each component of a vector literal. -/
def rnd4v (v : Vec3) : Vec3 := (rnd4 v.1, rnd4 v.2.1, rnd4 v.2.2)

/-- The exact rational value of the 32-bit float constant `std::f32::consts::PI`
(bit pattern `0x40490FDB`). -/
def piF32 : ℚ := 13176795 / 4194304

/-- Model of `f32::to_radians` (`self * (consts::PI / 180.0)`), computed with
exact rational arithmetic; the two `f32` roundings (of the constant quotient
and of the product) are below the 4-decimal precision at which the result is
printed and are not modelled. -/
def toRadians (q : ℚ) : ℚ := q * piF32 / 180

/-- The scene tree, from `src/sdf_modeler/sdf_ast.rs`.  In the source a
`SdfNode` struct wraps exactly one `SdfOp` enum value whose combinator and
transform variants own boxed child nodes; the wrapper is fused away here, so
one inductive plays both roles.  Triples of `f32` (`[f32; 3]`) are spread into
three rational fields. -/
inductive SdfNode : Type where
  | sphere (radius : ℚ)
  | boxN (sx sy sz : ℚ)
  | cylinder (radius height : ℚ)
  | torus (majorRadius minorRadius : ℚ)
  | unionN (a b : SdfNode) (smooth : ℚ)
  | subtractN (a b : SdfNode) (smooth : ℚ)
  | intersectN (a b : SdfNode) (smooth : ℚ)
  | translate (target : SdfNode) (ox oy oz : ℚ)
  | rotate (target : SdfNode) (ax ay az : ℚ) (angleDeg : ℚ)
  | mirror (target : SdfNode) (ax ay az : ℚ)
  | colorN (target : SdfNode) (r g b : ℚ)
  deriving DecidableEq

/-- `WgslGenerator::emit_expression` from `src/sdf_modeler/wgsl_gen.rs`,
lines 67–120: structural recursion over the tree, producing the WGSL
expression text for the `(distance, color)` pair at the point denoted by the
expression text `pVar`. -/
def emitExpression : SdfNode → String → String
  | .sphere radius, pVar =>
      "SdfResult(sd_sphere(" ++ pVar ++ ", " ++ fmt4 radius ++
        "), vec3<f32>(0.2, 0.55, 1.0))"
  | .boxN sx sy sz, pVar =>
      "SdfResult(sd_box(" ++ pVar ++ ", vec3<f32>(" ++ fmt4 sx ++ ", " ++
        fmt4 sy ++ ", " ++ fmt4 sz ++ ")), vec3<f32>(0.2, 0.55, 1.0))"
  | .cylinder radius height, pVar =>
      "SdfResult(sd_cylinder(" ++ pVar ++ ", " ++ fmt4 radius ++ ", " ++
        fmt4 height ++ "), vec3<f32>(0.2, 0.55, 1.0))"
  | .torus majorRadius minorRadius, pVar =>
      "SdfResult(sd_torus(" ++ pVar ++ ", vec2<f32>(" ++ fmt4 majorRadius ++
        ", " ++ fmt4 minorRadius ++ ")), vec3<f32>(0.2, 0.55, 1.0))"
  | .unionN a b smooth, pVar =>
      let res1 := emitExpression a pVar
      let res2 := emitExpression b pVar
      if 0 < smooth then
        "op_union_smooth(" ++ res1 ++ ", " ++ res2 ++ ", " ++ fmt4 smooth ++ ")"
      else
        "op_union(" ++ res1 ++ ", " ++ res2 ++ ")"
  | .subtractN a b smooth, pVar =>
      let res1 := emitExpression a pVar
      let res2 := emitExpression b pVar
      if 0 < smooth then
        "op_subtract_smooth(" ++ res1 ++ ", " ++ res2 ++ ", " ++ fmt4 smooth ++ ")"
      else
        "op_subtract(" ++ res1 ++ ", " ++ res2 ++ ")"
  | .intersectN a b _, pVar =>
      let res1 := emitExpression a pVar
      let res2 := emitExpression b pVar
      "op_intersect(" ++ res1 ++ ", " ++ res2 ++ ")"
  | .translate target ox oy oz, pVar =>
      let newP := "(" ++ pVar ++ " - vec3<f32>(" ++ fmt4 ox ++ ", " ++
        fmt4 oy ++ ", " ++ fmt4 oz ++ "))"
      emitExpression target newP
  | .rotate target ax ay _ angleDeg, pVar =>
      let rad := toRadians (-angleDeg)
      let axisName := if (0.9 : ℚ) < ax then "x" else if (0.9 : ℚ) < ay then "y" else "z"
      let newP := "rotate_" ++ axisName ++ "(" ++ pVar ++ ", " ++ fmt4 rad ++ ")"
      emitExpression target newP
  | .mirror target ax ay az, pVar =>
      let p0 := if (0.9 : ℚ) < ax then "abs(" ++ pVar ++ ".x)" else pVar ++ ".x"
      let p1 := if (0.9 : ℚ) < ay then "abs(" ++ pVar ++ ".y)" else pVar ++ ".y"
      let p2 := if (0.9 : ℚ) < az then "abs(" ++ pVar ++ ".z)" else pVar ++ ".z"
      let newP := "vec3<f32>(" ++ p0 ++ ", " ++ p1 ++ ", " ++ p2 ++ ")"
      emitExpression target newP
  | .colorN target r g b, pVar =>
      let res := emitExpression target pVar
      "set_color(" ++ res ++ ", vec3<f32>(" ++ fmt4 r ++ ", " ++ fmt4 g ++
        ", " ++ fmt4 b ++ "))"

/-- Modelled from the spec: the anti-aliasing level enumeration
(`SsaaLevel`, spec name `AntiAliasingLevel`).  Its Rust definition lives in
`src/sdf_modeler/sdf_ast.rs` in the repository but is absent from the provided
sources (only its callers in `mod.rs` and `wgsl_gen.rs` appear); the spec
gives the variants `Off`, `Grid2x2`, `Grid4x4`, `Grid8x8`. -/
inductive SsaaLevel : Type where
  | off
  | ssaa2x2
  | ssaa4x4
  | ssaa8x8
  deriving DecidableEq

/-- Modelled from the spec: `SsaaLevel::to_u32`, "mapping respectively to
sample-grid sizes 1, 2, 4, 8". -/
def SsaaLevel.gridSize : SsaaLevel → ℕ
  | .off => 1
  | .ssaa2x2 => 2
  | .ssaa4x4 => 4
  | .ssaa8x8 => 8

/-- The single-sample fragment entry point emitted when `n <= 1`
(`wgsl_gen.rs` lines 16–26), byte for byte. -/
def fsMainOff : String :=
  "@fragment\n" ++
  "                fn fs_main(in: VertexOutput) -> @location(0) vec4<f32> \x7b\n" ++
  "                    let pixel_pos = in.clip_position.xy;\n" ++
  "                    let rect_min = uniforms.rect_data.xy;\n" ++
  "                    let rect_size = uniforms.rect_data.zw;\n" ++
  "                    let aspect = rect_size.x / rect_size.y;\n" ++
  "                    let uv = (((pixel_pos - rect_min) / rect_size) * 2.0 - 1.0) * vec2<f32>(aspect, -1.0);\n" ++
  "                    return vec4<f32>(render_scene(uv), 1.0);\n" ++
  "                \x7d"

/-- The supersampling fragment entry point emitted when `n > 1`
(`wgsl_gen.rs` lines 29–48), byte for byte, with the three `{n}` holes filled
by the decimal digits of the grid size. -/
def fsMainLoop (n : ℕ) : String :=
  "@fragment\n" ++
  "                fn fs_main(in: VertexOutput) -> @location(0) vec4<f32> \x7b\n" ++
  "                    let pixel_pos = in.clip_position.xy;\n" ++
  "                    let rect_min = uniforms.rect_data.xy;\n" ++
  "                    let rect_size = uniforms.rect_data.zw;\n" ++
  "                    let aspect = rect_size.x / rect_size.y;\n" ++
  "                    var total_color = vec3<f32>(0.0);\n" ++
  "                    let n: f32 = " ++ Nat.repr n ++ ".0;\n" ++
  "                    for (var iy: i32 = 0; iy < " ++ Nat.repr n ++ "; iy = iy + 1) \x7b\n" ++
  "                        for (var ix: i32 = 0; ix < " ++ Nat.repr n ++ "; ix = ix + 1) \x7b\n" ++
  "                            let offset = (vec2<f32>(f32(ix), f32(iy)) + 0.5) / n - 0.5;\n" ++
  "                            let uv = (((pixel_pos + offset - rect_min) / rect_size) * 2.0 - 1.0) * vec2<f32>(aspect, -1.0);\n" ++
  "                            total_color += render_scene(uv);\n" ++
  "                        \x7d\n" ++
  "                    \x7d\n" ++
  "                    return vec4<f32>(total_color / (n * n), 1.0);\n" ++
  "                \x7d"

/-- The outer template of `WgslGenerator::generate` (`wgsl_gen.rs` lines
51–64): the `SdfResult` struct, the `map` function holding the emitted scene
expression, then the fragment entry point. -/
def generateTemplate (mapExpr fsMain : String) : String :=
  "struct SdfResult \x7b\n" ++
  "                dist: f32,\n" ++
  "                color: vec3<f32>,\n" ++
  "            \x7d\n" ++
  "\n" ++
  "            fn map(p_in: vec3<f32>) -> SdfResult \x7b\n" ++
  "                return " ++ mapExpr ++ ";\n" ++
  "            \x7d\n" ++
  "            \n" ++
  "            " ++ fsMain ++ "\n" ++
  "            "

/-- `WgslGenerator::generate` (`wgsl_gen.rs` lines 10–65): emit the scene
expression against the point variable `p_in`, pick the entry-point shape from
the grid size, and assemble the final source text. -/
def generate (root : SdfNode) (ssaa : SsaaLevel) : String :=
  let mapExpr := emitExpression root ("p_in")
  let n := ssaa.gridSize
  let fsMain := if n ≤ 1 then fsMainOff else fsMainLoop n
  generateTemplate mapExpr fsMain

/-!
## Semantics of the generated expressions

`emit_expression` only ever passes point expressions of four shapes: the
variable `p_in` itself, the translation rewrite, the rotation rewrite, and the
mirror fold.  `PExpr` is that grammar and `WExpr` the grammar of emitted
result expressions; `printP`/`printW` recover the exact generated text, and an
evaluator over an arbitrary interpretation of the template's helper functions
(whose WGSL bodies live in `shader_template.wgsl`, outside the generator)
gives the generated text its runtime meaning.  Numeric literals in the text
denote their rounded values (`rnd4`).
-/

/-- The axis name chosen by the `Rotate` arm. -/
inductive AxisName : Type where
  | x
  | y
  | z
  deriving DecidableEq

/-- The one-letter text of an axis name. -/
def AxisName.text : AxisName → String
  | .x => "x"
  | .y => "y"
  | .z => "z"

/-- The grammar of point expressions `emit_expression` builds. -/
inductive PExpr : Type where
  | pv
  | subP (p : PExpr) (ox oy oz : ℚ)
  | rotP (a : AxisName) (p : PExpr) (rad : ℚ)
  | mirP (p : PExpr) (mx my mz : Bool)
  deriving DecidableEq

/-- The exact text of a point expression, as `emit_expression` builds it. -/
def printP : PExpr → String
  | .pv => "p_in"
  | .subP p ox oy oz =>
      "(" ++ printP p ++ " - vec3<f32>(" ++ fmt4 ox ++ ", " ++ fmt4 oy ++
        ", " ++ fmt4 oz ++ "))"
  | .rotP a p rad =>
      "rotate_" ++ a.text ++ "(" ++ printP p ++ ", " ++ fmt4 rad ++ ")"
  | .mirP p mx my mz =>
      let p0 := if mx then "abs(" ++ printP p ++ ".x)" else printP p ++ ".x"
      let p1 := if my then "abs(" ++ printP p ++ ".y)" else printP p ++ ".y"
      let p2 := if mz then "abs(" ++ printP p ++ ".z)" else printP p ++ ".z"
      "vec3<f32>(" ++ p0 ++ ", " ++ p1 ++ ", " ++ p2 ++ ")"

/-- The grammar of result expressions `emit_expression` emits. -/
inductive WExpr : Type where
  | sphereW (p : PExpr) (radius : ℚ)
  | boxW (p : PExpr) (sx sy sz : ℚ)
  | cylinderW (p : PExpr) (radius height : ℚ)
  | torusW (p : PExpr) (majorRadius minorRadius : ℚ)
  | unionW (a b : WExpr)
  | unionSmoothW (a b : WExpr) (k : ℚ)
  | subtractW (a b : WExpr)
  | subtractSmoothW (a b : WExpr) (k : ℚ)
  | intersectW (a b : WExpr)
  | setColorW (a : WExpr) (r g b : ℚ)
  deriving DecidableEq

/-- The exact text of an emitted result expression. -/
def printW : WExpr → String
  | .sphereW p radius =>
      "SdfResult(sd_sphere(" ++ printP p ++ ", " ++ fmt4 radius ++
        "), vec3<f32>(0.2, 0.55, 1.0))"
  | .boxW p sx sy sz =>
      "SdfResult(sd_box(" ++ printP p ++ ", vec3<f32>(" ++ fmt4 sx ++ ", " ++
        fmt4 sy ++ ", " ++ fmt4 sz ++ ")), vec3<f32>(0.2, 0.55, 1.0))"
  | .cylinderW p radius height =>
      "SdfResult(sd_cylinder(" ++ printP p ++ ", " ++ fmt4 radius ++ ", " ++
        fmt4 height ++ "), vec3<f32>(0.2, 0.55, 1.0))"
  | .torusW p majorRadius minorRadius =>
      "SdfResult(sd_torus(" ++ printP p ++ ", vec2<f32>(" ++ fmt4 majorRadius ++
        ", " ++ fmt4 minorRadius ++ ")), vec3<f32>(0.2, 0.55, 1.0))"
  | .unionW a b => "op_union(" ++ printW a ++ ", " ++ printW b ++ ")"
  | .unionSmoothW a b k =>
      "op_union_smooth(" ++ printW a ++ ", " ++ printW b ++ ", " ++ fmt4 k ++ ")"
  | .subtractW a b => "op_subtract(" ++ printW a ++ ", " ++ printW b ++ ")"
  | .subtractSmoothW a b k =>
      "op_subtract_smooth(" ++ printW a ++ ", " ++ printW b ++ ", " ++ fmt4 k ++ ")"
  | .intersectW a b => "op_intersect(" ++ printW a ++ ", " ++ printW b ++ ")"
  | .setColorW a r g b =>
      "set_color(" ++ printW a ++ ", vec3<f32>(" ++ fmt4 r ++ ", " ++ fmt4 g ++
        ", " ++ fmt4 b ++ "))"

/-- Structured counterpart of `emit_expression`: the same recursion, producing
the emitted expression as a tree instead of text.  `emitE_printP` below proves
it prints to exactly what `emit_expression` emits. -/
def emitE : SdfNode → PExpr → WExpr
  | .sphere radius, p => .sphereW p radius
  | .boxN sx sy sz, p => .boxW p sx sy sz
  | .cylinder radius height, p => .cylinderW p radius height
  | .torus majorRadius minorRadius, p => .torusW p majorRadius minorRadius
  | .unionN a b smooth, p =>
      if 0 < smooth then .unionSmoothW (emitE a p) (emitE b p) smooth
      else .unionW (emitE a p) (emitE b p)
  | .subtractN a b smooth, p =>
      if 0 < smooth then .subtractSmoothW (emitE a p) (emitE b p) smooth
      else .subtractW (emitE a p) (emitE b p)
  | .intersectN a b _, p => .intersectW (emitE a p) (emitE b p)
  | .translate target ox oy oz, p => emitE target (.subP p ox oy oz)
  | .rotate target ax ay _ angleDeg, p =>
      let a : AxisName :=
        if (0.9 : ℚ) < ax then .x else if (0.9 : ℚ) < ay then .y else .z
      emitE target (.rotP a p (toRadians (-angleDeg)))
  | .mirror target ax ay az, p =>
      emitE target (.mirP p (decide ((0.9 : ℚ) < ax)) (decide ((0.9 : ℚ) < ay))
        (decide ((0.9 : ℚ) < az)))
  | .colorN target r g b, p => .setColorW (emitE target p) r g b

/-- An interpretation of the template's helper functions (their WGSL bodies
live in `shader_template.wgsl`, outside the generator); the structural
properties proved below hold for every interpretation. -/
structure Interp : Type where
  sdSphere : Vec3 → ℚ → ℚ
  sdBox : Vec3 → Vec3 → ℚ
  sdCylinder : Vec3 → ℚ → ℚ → ℚ
  sdTorus : Vec3 → ℚ → ℚ → ℚ
  opUnion : SdfResult → SdfResult → SdfResult
  opUnionSmooth : SdfResult → SdfResult → ℚ → SdfResult
  opSubtract : SdfResult → SdfResult → SdfResult
  opSubtractSmooth : SdfResult → SdfResult → ℚ → SdfResult
  opIntersect : SdfResult → SdfResult → SdfResult
  rotateX : Vec3 → ℚ → Vec3
  rotateY : Vec3 → ℚ → Vec3
  rotateZ : Vec3 → ℚ → Vec3

/-- Modelled from the spec: the `set_color` helper of `shader_template.wgsl`
(the template file is absent from the provided sources).  The spec: the
`Color` wrapper "keeps the distance unchanged and replaces the color with the
literal `rgb`". -/
def setColor (r : SdfResult) (c : Vec3) : SdfResult := (r.1, c)

/-- The value of the fixed placeholder color text `vec3<f32>(0.2, 0.55, 1.0)`
every primitive is paired with. -/
def defaultColor : Vec3 := (0.2, 0.55, 1.0)

/-- The rotation helper selected by an axis name. -/
def AxisName.rotApply (I : Interp) : AxisName → Vec3 → ℚ → Vec3
  | .x => I.rotateX
  | .y => I.rotateY
  | .z => I.rotateZ

/-- Runtime value of a point expression, given the value `v` of `p_in`. -/
def evalP (I : Interp) : PExpr → Vec3 → Vec3
  | .pv, v => v
  | .subP p ox oy oz, v =>
      let w := evalP I p v
      (w.1 - rnd4 ox, w.2.1 - rnd4 oy, w.2.2 - rnd4 oz)
  | .rotP a p rad, v => a.rotApply I (evalP I p v) (rnd4 rad)
  | .mirP p mx my mz, v =>
      let w := evalP I p v
      ((if mx then |w.1| else w.1), (if my then |w.2.1| else w.2.1),
        (if mz then |w.2.2| else w.2.2))

/-- Runtime value of an emitted result expression, given the value `v` of
`p_in`. -/
def evalW (I : Interp) : WExpr → Vec3 → SdfResult
  | .sphereW p radius, v => (I.sdSphere (evalP I p v) (rnd4 radius), defaultColor)
  | .boxW p sx sy sz, v =>
      (I.sdBox (evalP I p v) (rnd4 sx, rnd4 sy, rnd4 sz), defaultColor)
  | .cylinderW p radius height, v =>
      (I.sdCylinder (evalP I p v) (rnd4 radius) (rnd4 height), defaultColor)
  | .torusW p majorRadius minorRadius, v =>
      (I.sdTorus (evalP I p v) (rnd4 majorRadius) (rnd4 minorRadius), defaultColor)
  | .unionW a b, v => I.opUnion (evalW I a v) (evalW I b v)
  | .unionSmoothW a b k, v => I.opUnionSmooth (evalW I a v) (evalW I b v) (rnd4 k)
  | .subtractW a b, v => I.opSubtract (evalW I a v) (evalW I b v)
  | .subtractSmoothW a b k, v =>
      I.opSubtractSmooth (evalW I a v) (evalW I b v) (rnd4 k)
  | .intersectW a b, v => I.opIntersect (evalW I a v) (evalW I b v)
  | .setColorW a r g b, v => setColor (evalW I a v) (rnd4 r, rnd4 g, rnd4 b)

/-- Denotation of the generated `map` body for a scene tree: the emitted
expression against the variable `p_in`, evaluated with `p_in := v` — "the
tree evaluated at world point `v`". -/
def semMap (I : Interp) (node : SdfNode) (v : Vec3) : SdfResult :=
  evalW I (emitE node .pv) v

/-- A concrete interpretation of the helper functions, used to evaluate the
generated expressions at concrete inputs: distances report the x-coordinate of
the sample point, combinators keep their left argument, rotations are the
identity. -/
def probeInterp : Interp where
  sdSphere := fun p _ => p.1
  sdBox := fun p _ => p.1
  sdCylinder := fun p _ _ => p.1
  sdTorus := fun p _ _ => p.1
  opUnion := fun a _ => a
  opUnionSmooth := fun a _ _ => a
  opSubtract := fun a _ => a
  opSubtractSmooth := fun a _ _ => a
  opIntersect := fun a _ => a
  rotateX := fun p _ => p
  rotateY := fun p _ => p
  rotateZ := fun p _ => p

/-- Does `pat` occur at the head of `s`? -/
def headMatch : List Char → List Char → Bool
  | [], _ => true
  | _ :: _, [] => false
  | a :: as, b :: bs => a = b && headMatch as bs

/-- Number of (possibly overlapping) occurrences of `pat` in `s`. -/
def occCount (pat : List Char) : List Char → ℕ
  | [] => if headMatch pat [] then 1 else 0
  | c :: cs => (if headMatch pat (c :: cs) then 1 else 0) + occCount pat cs

/-- Number of occurrences of the pattern string in the subject string. -/
def strCount (pat s : String) : ℕ := occCount pat.data s.data

/-- Does the pattern string occur anywhere in the subject string? -/
def strHas (pat s : String) : Bool := decide (0 < strCount pat s)

/-- `emit_expression` emits exactly the text of the structured emission: the
string generator and the structured generator agree. -/
theorem emitE_printP (node : SdfNode) : ∀ p : PExpr,
    emitExpression node (printP p) = printW (emitE node p) := by
  induction node with
  | sphere radius => intro p; rfl
  | boxN sx sy sz => intro p; rfl
  | cylinder radius height => intro p; rfl
  | torus majorRadius minorRadius => intro p; rfl
  | unionN a b smooth iha ihb =>
      intro p
      by_cases h : 0 < smooth <;>
        simp [emitExpression, emitE, printW, h, iha, ihb]
  | subtractN a b smooth iha ihb =>
      intro p
      by_cases h : 0 < smooth <;>
        simp [emitExpression, emitE, printW, h, iha, ihb]
  | intersectN a b smooth iha ihb =>
      intro p
      simp [emitExpression, emitE, printW, iha, ihb]
  | translate target ox oy oz ih =>
      intro p
      simpa [emitExpression, emitE] using ih (.subP p ox oy oz)
  | rotate target ax ay az angleDeg ih =>
      intro p
      by_cases h0 : (0.9 : ℚ) < ax
      · simpa [emitExpression, emitE, h0, printP, AxisName.text] using
          ih (.rotP .x p (toRadians (-angleDeg)))
      · by_cases h1 : (0.9 : ℚ) < ay
        · simpa [emitExpression, emitE, h0, h1, printP, AxisName.text] using
            ih (.rotP .y p (toRadians (-angleDeg)))
        · simpa [emitExpression, emitE, h0, h1, printP, AxisName.text] using
            ih (.rotP .z p (toRadians (-angleDeg)))
  | mirror target ax ay az ih =>
      intro p
      have := ih (.mirP p (decide ((0.9 : ℚ) < ax)) (decide ((0.9 : ℚ) < ay))
        (decide ((0.9 : ℚ) < az)))
      by_cases h0 : (0.9 : ℚ) < ax <;> by_cases h1 : (0.9 : ℚ) < ay <;>
        by_cases h2 : (0.9 : ℚ) < az <;>
        simpa [emitExpression, emitE, printP, h0, h1, h2] using this
  | colorN target r g b ih =>
      intro p
      simp [emitExpression, emitE, printW, ih]

/-- Evaluating the emission against a compound point expression is evaluating
the tree at that expression's value: the point rewrites of the transform arms
are substitutions. -/
theorem evalW_emitE (I : Interp) (node : SdfNode) : ∀ (p : PExpr) (v : Vec3),
    evalW I (emitE node p) v = semMap I node (evalP I p v) := by
  induction node with
  | sphere radius => intro p v; rfl
  | boxN sx sy sz => intro p v; rfl
  | cylinder radius height => intro p v; rfl
  | torus majorRadius minorRadius => intro p v; rfl
  | unionN a b smooth iha ihb =>
      intro p v
      simp only [semMap, emitE]
      by_cases h : 0 < smooth <;>
        simp only [if_pos, if_neg, h, evalW, iha, ihb, evalP]
  | subtractN a b smooth iha ihb =>
      intro p v
      simp only [semMap, emitE]
      by_cases h : 0 < smooth <;>
        simp only [if_pos, if_neg, h, evalW, iha, ihb, evalP]
  | intersectN a b smooth iha ihb =>
      intro p v
      simp only [semMap, emitE]
      simp only [evalW, iha, ihb, evalP]
  | translate target ox oy oz ih =>
      intro p v
      simp only [semMap, emitE]
      rw [ih (.subP p ox oy oz) v, ih (.subP .pv ox oy oz) (evalP I p v)]
      rfl
  | rotate target ax ay az angleDeg ih =>
      intro p v
      simp only [semMap, emitE]
      rw [ih _ v, ih _ (evalP I p v)]
      rfl
  | mirror target ax ay az ih =>
      intro p v
      simp only [semMap, emitE]
      rw [ih _ v, ih _ (evalP I p v)]
      rfl
  | colorN target r g b ih =>
      intro p v
      simp only [semMap, emitE]
      simp only [evalW, ih, evalP]

/-- Rounding half to even moves a rational by at most `1/2`. -/
lemma roundHalfEven_close (x : ℚ) : |(roundHalfEven x : ℚ) - x| ≤ 1/2 := by
  have h1 : (⌊x⌋ : ℚ) ≤ x := Int.floor_le x
  have h2 : x < ⌊x⌋ + 1 := Int.lt_floor_add_one x
  unfold roundHalfEven
  split_ifs with ha hb hc <;> rw [abs_le] <;> constructor <;> push_cast <;> linarith

/-- Rounding half to even preserves nonnegativity. -/
lemma roundHalfEven_nonneg (x : ℚ) (hx : 0 ≤ x) : 0 ≤ roundHalfEven x := by
  have h0 : 0 ≤ ⌊x⌋ := Int.le_floor.mpr (by exact_mod_cast hx)
  unfold roundHalfEven
  split_ifs <;> omega

/-- The value of a nonnegative magnitude printed at 4 decimal places is within
`1/20000` of the magnitude. -/
lemma rnd4Mag_close (a : ℚ) (ha : 0 ≤ a) :
    |(((roundHalfEven (a * 10000)).toNat : ℚ)) / 10000 - a| ≤ 1/20000 := by
  have hnn : 0 ≤ roundHalfEven (a * 10000) :=
    roundHalfEven_nonneg _ (by positivity)
  have hcast : (((roundHalfEven (a * 10000)).toNat : ℤ) : ℚ) =
      ((roundHalfEven (a * 10000) : ℤ) : ℚ) := by
    exact_mod_cast congrArg (fun z : ℤ => (z : ℚ)) (Int.toNat_of_nonneg hnn)
  have hclose := roundHalfEven_close (a * 10000)
  rw [abs_le] at hclose ⊢
  constructor
  · have := hclose.1
    push_cast at hcast ⊢
    rw [hcast]
    linarith
  · have := hclose.2
    push_cast at hcast ⊢
    rw [hcast]
    linarith

/-- The 4-decimal literal the generator prints for a numeric field denotes a
value within `1/20000` (in particular within `1e-4`) of the field. -/
lemma rnd4_close (q : ℚ) : |rnd4 q - q| ≤ 1/20000 := by
  unfold rnd4
  split_ifs with h
  · have := rnd4Mag_close (-q) (by linarith)
    calc |-(((roundHalfEven (-q * 10000)).toNat : ℚ) / 10000) - q|
        = |((roundHalfEven (-q * 10000)).toNat : ℚ) / 10000 - -q| := by
          rw [← abs_neg]; ring_nf
      _ ≤ 1/20000 := this
  · exact rnd4Mag_close q (not_lt.mp h)

/-- A 4-decimal literal matches its field to within `1e-4`. -/
lemma rnd4_close_1e4 (q : ℚ) : |rnd4 q - q| ≤ 1/10000 :=
  le_trans (rnd4_close q) (by norm_num)

/-- `fmt4` always prints exactly four digits after the decimal point. -/
lemma fmt4_four_decimals (q : ℚ) :
    ∃ s t : String, fmt4 q = s ++ "." ++ t ∧ t.length = 4 := by
  unfold fmt4 fmt4Mag
  split_ifs with h
  · refine ⟨"-" ++ Nat.repr ((roundHalfEven (-q * 10000)).toNat / 10000),
      digits4 ((roundHalfEven (-q * 10000)).toNat % 10000), ?_, ?_⟩
    · simp [String.append_assoc]
    · simp [digits4, String.length]
  · exact ⟨Nat.repr ((roundHalfEven (q * 10000)).toNat / 10000),
      digits4 ((roundHalfEven (q * 10000)).toNat % 10000), rfl,
      by simp [digits4, String.length]⟩

/-- Claim C3: for every Intersect node, regardless of its blend (smooth)
field, the generator emits the crisp `op_intersect` combinator applied to the
two recursively generated child expressions; the blend field is never
consulted and no smoothing helper is emitted for Intersect. -/
theorem c3_intersect_crisp (a b : SdfNode) (smooth : ℚ) (pVar : String) :
    emitExpression (.intersectN a b smooth) pVar =
      "op_intersect(" ++ emitExpression a pVar ++ ", " ++
        emitExpression b pVar ++ ")"
    ∧ ∀ smooth2 : ℚ, emitExpression (.intersectN a b smooth) pVar =
        emitExpression (.intersectN a b smooth2) pVar :=
  ⟨rfl, fun _ => rfl⟩

/-- Claim C4: for every Union node both children are generated against the
same point expression; with blend = 0 the generator emits the crisp
`op_union` combinator (no smoothing helper), and with blend > 0 it emits
`op_union_smooth` parameterized by the blend formatted to 4 decimal places. -/
theorem c4_union_blend (a b : SdfNode) (smooth : ℚ) (pVar : String) :
    (smooth = 0 →
      emitExpression (.unionN a b smooth) pVar =
        "op_union(" ++ emitExpression a pVar ++ ", " ++
          emitExpression b pVar ++ ")")
    ∧ (0 < smooth →
      emitExpression (.unionN a b smooth) pVar =
        "op_union_smooth(" ++ emitExpression a pVar ++ ", " ++
          emitExpression b pVar ++ ", " ++ fmt4 smooth ++ ")") := by
  constructor
  · intro h
    subst h
    simp [emitExpression]
  · intro h
    simp [emitExpression, if_pos h]

/-- Witness for C4, the spec's scenario: `Union(Box(1,1,1), Sphere(0.5),
blend = 0)` yields the crisp union of the two primitive calls, and a positive
blend yields the smooth helper. -/
theorem c4_union_blend_witness :
    emitExpression (.unionN (.boxN 1 1 1) (.sphere (1/2)) 0) ("p_in") =
      "op_union(" ++ emitExpression (.boxN 1 1 1) ("p_in") ++ ", " ++
        emitExpression (.sphere (1/2)) ("p_in") ++ ")"
    ∧ emitExpression (.unionN (.boxN 1 1 1) (.sphere (1/2)) (1/2)) ("p_in") =
      "op_union_smooth(" ++ emitExpression (.boxN 1 1 1) ("p_in") ++ ", " ++
        emitExpression (.sphere (1/2)) ("p_in") ++ ", " ++ fmt4 (1/2) ++ ")" :=
  ⟨(c4_union_blend (.boxN 1 1 1) (.sphere (1/2)) 0 ("p_in")).1 rfl,
    (c4_union_blend (.boxN 1 1 1) (.sphere (1/2)) (1/2) ("p_in")).2 (by norm_num)⟩

/-- Claim C10 (implicit): a Union or Subtract node whose smoothing factor is
strictly negative is emitted exactly as for blend = 0 — the crisp combinator;
the smoothing helper appears only for a strictly positive factor. -/
theorem c10_negative_blend_crisp (a b : SdfNode) (smooth : ℚ) (pVar : String)
    (h : smooth < 0) :
    emitExpression (.unionN a b smooth) pVar =
      emitExpression (.unionN a b 0) pVar
    ∧ emitExpression (.unionN a b smooth) pVar =
      "op_union(" ++ emitExpression a pVar ++ ", " ++ emitExpression b pVar ++ ")"
    ∧ emitExpression (.subtractN a b smooth) pVar =
      emitExpression (.subtractN a b 0) pVar
    ∧ emitExpression (.subtractN a b smooth) pVar =
      "op_subtract(" ++ emitExpression a pVar ++ ", " ++
        emitExpression b pVar ++ ")" := by
  have hns : ¬ (0 < smooth) := not_lt.mpr h.le
  refine ⟨?_, ?_, ?_, ?_⟩ <;> simp [emitExpression, if_neg hns]

/-- Witness for C10 at blend = −1/2 on concrete children. -/
theorem c10_negative_blend_crisp_witness :
    emitExpression (.unionN (.sphere 1) (.sphere 2) (-(1/2))) ("p_in") =
      emitExpression (.unionN (.sphere 1) (.sphere 2) 0) ("p_in")
    ∧ emitExpression (.unionN (.sphere 1) (.sphere 2) (-(1/2))) ("p_in") =
      "op_union(" ++ emitExpression (.sphere 1) ("p_in") ++ ", " ++
        emitExpression (.sphere 2) ("p_in") ++ ")" :=
  ⟨(c10_negative_blend_crisp (.sphere 1) (.sphere 2) (-(1/2)) ("p_in")
      (by norm_num)).1,
    (c10_negative_blend_crisp (.sphere 1) (.sphere 2) (-(1/2)) ("p_in")
      (by norm_num)).2.1⟩

/-- Claim C2, corrected: the generator picks the rotation axis name by the
signed comparisons `ax > 0.9`, then `ay > 0.9`, defaulting to z (the z
component is never examined and negative components never match — not by
absolute value as the claim states), and rewrites the point to a rotation
about that axis by the negative of the angle converted to radians, formatted
to 4 decimal places, before recursing into the child. -/
theorem c2_rotate_axis_amended (target : SdfNode) (ax ay az angleDeg : ℚ)
    (pVar : String) :
    emitExpression (.rotate target ax ay az angleDeg) pVar =
      emitExpression target
        ("rotate_" ++
          (if (0.9 : ℚ) < ax then "x" else if (0.9 : ℚ) < ay then "y" else "z") ++
          "(" ++ pVar ++ ", " ++ fmt4 (toRadians (-angleDeg)) ++ ")") := by
  rfl

/-- Counterexample for C2 as stated: for the axis `(-1, 0, 0)` the x
component's absolute value exceeds 0.9, so the claim predicts `rotate_x`, but
the generator emits `rotate_z` (the comparison is signed). -/
theorem c2_rotate_axis_cex :
    emitExpression (.rotate (.sphere 1) (-1) 0 0 90) ("p_in") =
      "SdfResult(sd_sphere(rotate_z(p_in, -1.5708), 1.0000), vec3<f32>(0.2, 0.55, 1.0))"
    ∧ emitExpression (.rotate (.sphere 1) (-1) 0 0 90) ("p_in") ≠
      "SdfResult(sd_sphere(rotate_x(p_in, -1.5708), 1.0000), vec3<f32>(0.2, 0.55, 1.0))" := by
  constructor <;> decide

/-- Claim C9: code generation is total — for every tree and level the
generator terminates (the embedding is structural recursion, exhaustive over
the variants) and returns a nonempty source string; malformed inputs are
silently coerced rather than rejected: a Rotate whose axis is not axis
aligned (no component above 0.9) is emitted as a z-axis rotation. -/
theorem c9_generator_total :
    (∀ (root : SdfNode) (ssaa : SsaaLevel), 0 < (generate root ssaa).length)
    ∧ ∀ (target : SdfNode) (ax ay az angleDeg : ℚ) (pVar : String),
        ax ≤ 0.9 → ay ≤ 0.9 →
        emitExpression (.rotate target ax ay az angleDeg) pVar =
          emitExpression target
            ("rotate_z(" ++ pVar ++ ", " ++ fmt4 (toRadians (-angleDeg)) ++ ")") := by
  constructor
  · intro root ssaa
    have h : 0 < ("struct SdfResult \x7b\n" : String).length := by decide
    simp only [generate, generateTemplate, String.length_append]
    omega
  · intro target ax ay az angleDeg pVar hx hy
    simp [emitExpression, if_neg (not_lt.mpr hx), if_neg (not_lt.mpr hy)]

/-- Witness for C9: a nonempty output for a concrete scene, and the genuinely
non-axis-aligned axis `(1/2, 1/2, 1/2)` silently coerced to a z rotation. -/
theorem c9_generator_total_witness :
    0 < (generate (.sphere 1) .off).length
    ∧ emitExpression (.rotate (.sphere 1) (1/2) (1/2) (1/2) (-90)) ("p_in") =
      emitExpression (.sphere 1)
        ("rotate_z(p_in, " ++ fmt4 (toRadians 90) ++ ")") := by
  refine ⟨c9_generator_total.1 (.sphere 1) .off, ?_⟩
  have := c9_generator_total.2 (.sphere 1) (1/2) (1/2) (1/2) (-90) ("p_in")
    (by norm_num) (by norm_num)
  simpa using this

/-- Claim C5, corrected: a Translate node emits its child against the point
expression rewritten to `(point - offset)` with each offset component
formatted to 4 decimal places; consequently `Translate(C, o)` evaluated at
world point `p` denotes the same `(distance, color)` pair as `C` evaluated at
`p - rnd4 o` — the value of the printed literal — which equals `C` at `p - o`
whenever each component of `o` is exactly representable at 4 decimal
places. -/
theorem c5_translate_amended (target : SdfNode) (ox oy oz : ℚ) (pVar : String) :
    emitExpression (.translate target ox oy oz) pVar =
      emitExpression target
        ("(" ++ pVar ++ " - vec3<f32>(" ++ fmt4 ox ++ ", " ++ fmt4 oy ++
          ", " ++ fmt4 oz ++ "))")
    ∧ (∀ (I : Interp) (v : Vec3),
        semMap I (.translate target ox oy oz) v =
          semMap I target (v.1 - rnd4 ox, v.2.1 - rnd4 oy, v.2.2 - rnd4 oz))
    ∧ (rnd4 ox = ox → rnd4 oy = oy → rnd4 oz = oz →
        ∀ (I : Interp) (v : Vec3),
          semMap I (.translate target ox oy oz) v =
            semMap I target (v.1 - ox, v.2.1 - oy, v.2.2 - oz)) := by
  have key : ∀ (I : Interp) (v : Vec3),
      semMap I (.translate target ox oy oz) v =
        semMap I target (v.1 - rnd4 ox, v.2.1 - rnd4 oy, v.2.2 - rnd4 oz) := by
    intro I v
    simp only [semMap, emitE]
    rw [evalW_emitE I target (.subP .pv ox oy oz) v]
    rfl
  exact ⟨rfl, key, fun h1 h2 h3 I v => by rw [key I v, h1, h2, h3]⟩

/-- Counterexample for C5 as stated: for the offset `(0.12346, 0, 0)` the
emitted literal is `0.1235`, so the generated expression for the translated
sphere evaluated at the origin differs from the child evaluated at
`p - offset` (distances `-0.1235` versus `-0.12346` under `probeInterp`). -/
theorem c5_translate_cex :
    semMap probeInterp (.translate (.sphere 1) (12346/100000) 0 0) (0, 0, 0) ≠
      semMap probeInterp (.sphere 1) (-(12346/100000), 0 - 0, 0 - 0) := by
  decide

/-- Witness for C5's representability case, the spec's scenario 3:
`Translate(Sphere(1), (2,0,0))` evaluated at `(2,0,0)` equals `Sphere(1)`
evaluated at the origin. -/
theorem c5_translate_amended_witness :
    (rnd4 (2 : ℚ) = 2 ∧ rnd4 (0 : ℚ) = 0)
    ∧ semMap probeInterp (.translate (.sphere 1) 2 0 0) (2, 0, 0) =
      semMap probeInterp (.sphere 1) ((2 : ℚ) - 2, (0 : ℚ) - 0, (0 : ℚ) - 0) :=
  ⟨⟨by decide, by decide⟩,
    (c5_translate_amended (.sphere 1) 2 0 0 ("p_in")).2.2 (by decide) (by decide)
      (by decide) probeInterp (2, 0, 0)⟩

/-- Claim C6: a Color node wraps the child's recursively generated expression
in `set_color`, leaving the distance component unchanged and replacing the
color with the value of the printed rgb literal; since the outermost Color
wraps the whole subtree, its rgb is the final color regardless of how many
Color nodes are nested beneath (the child `target` here is arbitrary and may
itself contain Color nodes). -/
theorem c6_color_override (target : SdfNode) (r g b : ℚ) (pVar : String) :
    emitExpression (.colorN target r g b) pVar =
      "set_color(" ++ emitExpression target pVar ++ ", vec3<f32>(" ++ fmt4 r ++
        ", " ++ fmt4 g ++ ", " ++ fmt4 b ++ "))"
    ∧ ∀ (I : Interp) (v : Vec3),
        (semMap I (.colorN target r g b) v).1 = (semMap I target v).1
        ∧ (semMap I (.colorN target r g b) v).2 = (rnd4 r, rnd4 g, rnd4 b) :=
  ⟨rfl, fun _ _ => ⟨rfl, rfl⟩⟩

/-- Claim C7: every numeric field of a primitive node is emitted in the
generated distance-function call formatted by `fmt4` (exactly four digits
after the decimal point), the value denoted by that literal (`rnd4`) matches
the field to within `1e-4`, the primitive is paired with the fixed placeholder
mid-blue constant `vec3<f32>(0.2, 0.55, 1.0)`, and in particular
`Sphere(radius = 1)` produces `sd_sphere(p_in, 1.0000)`. -/
theorem c7_primitive_literals :
    (∀ (pVar : String) (radius : ℚ),
      emitExpression (.sphere radius) pVar =
        "SdfResult(sd_sphere(" ++ pVar ++ ", " ++ fmt4 radius ++
          "), vec3<f32>(0.2, 0.55, 1.0))")
    ∧ (∀ (pVar : String) (sx sy sz : ℚ),
      emitExpression (.boxN sx sy sz) pVar =
        "SdfResult(sd_box(" ++ pVar ++ ", vec3<f32>(" ++ fmt4 sx ++ ", " ++
          fmt4 sy ++ ", " ++ fmt4 sz ++ ")), vec3<f32>(0.2, 0.55, 1.0))")
    ∧ (∀ (pVar : String) (radius height : ℚ),
      emitExpression (.cylinder radius height) pVar =
        "SdfResult(sd_cylinder(" ++ pVar ++ ", " ++ fmt4 radius ++ ", " ++
          fmt4 height ++ "), vec3<f32>(0.2, 0.55, 1.0))")
    ∧ (∀ (pVar : String) (majorRadius minorRadius : ℚ),
      emitExpression (.torus majorRadius minorRadius) pVar =
        "SdfResult(sd_torus(" ++ pVar ++ ", vec2<f32>(" ++ fmt4 majorRadius ++
          ", " ++ fmt4 minorRadius ++ ")), vec3<f32>(0.2, 0.55, 1.0))")
    ∧ (∀ q : ℚ, |rnd4 q - q| ≤ 1/10000)
    ∧ (∀ q : ℚ, ∃ s t : String, fmt4 q = s ++ "." ++ t ∧ t.length = 4)
    ∧ emitExpression (.sphere 1) ("p_in") =
        "SdfResult(sd_sphere(p_in, 1.0000), vec3<f32>(0.2, 0.55, 1.0))" :=
  ⟨fun _ _ => rfl, fun _ _ _ _ => rfl, fun _ _ _ => rfl, fun _ _ _ => rfl,
    rnd4_close_1e4, fmt4_four_decimals, by decide⟩

/-- Folding a coordinate with `abs` makes it insensitive to a sign flip,
provided the flip only happens on folded coordinates. -/
lemma mirrorComp (f s : Bool) (c : ℚ) (h : s = true → f = true) :
    (if f then |(if s then -c else c)| else (if s then -c else c)) =
      (if f then |c| else c) := by
  cases s
  · rfl
  · rw [h rfl]
    simp [abs_neg]

/-- Claim C8: a Mirror node replaces each coordinate of the point expression
whose axis is flagged (component above 0.9) by its absolute value before
recursing; consequently the generated expression's value at a point equals
its value after negating any subset of the flagged coordinates — reflective
symmetry across each flagged coordinate plane, simultaneously for multiple
flags. -/
theorem c8_mirror_symmetry (target : SdfNode) (ax ay az : ℚ) (pVar : String) :
    emitExpression (.mirror target ax ay az) pVar =
      emitExpression target
        ("vec3<f32>(" ++
          (if (0.9 : ℚ) < ax then "abs(" ++ pVar ++ ".x)" else pVar ++ ".x") ++
          ", " ++
          (if (0.9 : ℚ) < ay then "abs(" ++ pVar ++ ".y)" else pVar ++ ".y") ++
          ", " ++
          (if (0.9 : ℚ) < az then "abs(" ++ pVar ++ ".z)" else pVar ++ ".z") ++
          ")")
    ∧ ∀ (I : Interp) (v : Vec3) (sx sy sz : Bool),
        (sx = true → (0.9 : ℚ) < ax) → (sy = true → (0.9 : ℚ) < ay) →
        (sz = true → (0.9 : ℚ) < az) →
        semMap I (.mirror target ax ay az) v =
          semMap I (.mirror target ax ay az)
            ((if sx then -v.1 else v.1), (if sy then -v.2.1 else v.2.1),
              (if sz then -v.2.2 else v.2.2)) := by
  refine ⟨rfl, ?_⟩
  intro I v sx sy sz hx hy hz
  simp only [semMap, emitE]
  rw [evalW_emitE I target _ v, evalW_emitE I target _ _]
  congr 1
  simp only [evalP]
  rw [(mirrorComp (decide ((0.9 : ℚ) < ax)) sx v.1
        (fun h => decide_eq_true (hx h))).symm,
      (mirrorComp (decide ((0.9 : ℚ) < ay)) sy v.2.1
        (fun h => decide_eq_true (hy h))).symm,
      (mirrorComp (decide ((0.9 : ℚ) < az)) sz v.2.2
        (fun h => decide_eq_true (hz h))).symm]

/-- Witness for C8, the spec's scenario 4:
`Mirror(Translate(Sphere(0.2), (1,0,0)), axis x)` evaluated at `(-1,0,0)`
equals its evaluation at `(1,0,0)`. -/
theorem c8_mirror_symmetry_witness :
    semMap probeInterp (.mirror (.translate (.sphere (2/10)) 1 0 0) 1 0 0)
        (-1, 0, 0) =
      semMap probeInterp (.mirror (.translate (.sphere (2/10)) 1 0 0) 1 0 0)
        (1, 0, 0) := by
  have h := (c8_mirror_symmetry (.translate (.sphere (2/10)) 1 0 0) 1 0 0
      ("p_in")).2 probeInterp (-1, 0, 0) true false false
      (fun _ => by norm_num) (fun hc => nomatch hc) (fun hc => nomatch hc)
  simpa using h

/-- Claim C1, corrected: for every scene tree the Off level yields the
single-sample entry point (no sampling loop, one scene evaluation) and the
grid levels yield the doubly nested loop with the literal bounds 2/4/8 and
the sub-pixel offset formula baked into the text; however the final division
is written `total_color / (n * n)` against the shader-local constant
`let n: f32 = 2.0/4.0/8.0` — the literal divisors 4/16/64 never appear. -/
theorem c1_antialiasing_shape_amended :
    (∀ root : SdfNode,
      generate root .off = generateTemplate (emitExpression root ("p_in")) fsMainOff
      ∧ generate root .ssaa2x2 =
          generateTemplate (emitExpression root ("p_in")) (fsMainLoop 2)
      ∧ generate root .ssaa4x4 =
          generateTemplate (emitExpression root ("p_in")) (fsMainLoop 4)
      ∧ generate root .ssaa8x8 =
          generateTemplate (emitExpression root ("p_in")) (fsMainLoop 8))
    ∧ strCount ("for (") fsMainOff = 0
    ∧ strCount ("render_scene") fsMainOff = 1
    ∧ strHas ("let offset = (vec2<f32>(f32(ix), f32(iy)) + 0.5) / n - 0.5;")
        (fsMainLoop 2) = true
    ∧ (strCount ("iy < 2;") (fsMainLoop 2) = 1
       ∧ strCount ("ix < 2;") (fsMainLoop 2) = 1
       ∧ strHas ("let n: f32 = 2.0;") (fsMainLoop 2) = true
       ∧ strHas ("total_color / (n * n)") (fsMainLoop 2) = true
       ∧ strHas ("/ 4") (fsMainLoop 2) = false)
    ∧ (strCount ("iy < 4;") (fsMainLoop 4) = 1
       ∧ strCount ("ix < 4;") (fsMainLoop 4) = 1
       ∧ strHas ("let n: f32 = 4.0;") (fsMainLoop 4) = true
       ∧ strHas ("total_color / (n * n)") (fsMainLoop 4) = true
       ∧ strHas ("/ 16") (fsMainLoop 4) = false)
    ∧ (strCount ("iy < 8;") (fsMainLoop 8) = 1
       ∧ strCount ("ix < 8;") (fsMainLoop 8) = 1
       ∧ strHas ("let n: f32 = 8.0;") (fsMainLoop 8) = true
       ∧ strHas ("total_color / (n * n)") (fsMainLoop 8) = true
       ∧ strHas ("/ 64") (fsMainLoop 8) = false) := by
  refine ⟨fun root => ⟨rfl, rfl, rfl, rfl⟩, ?_⟩
  decide

/-- Counterexample for C1 as stated: compiling a sphere at level Grid2x2
produces text whose final averaging division reads `total_color / (n * n)`;
the literal divisor `4` claimed to be baked into the text never occurs. -/
theorem c1_antialiasing_shape_cex :
    strHas ("total_color / (n * n)") (generate (.sphere 1) .ssaa2x2) = true
    ∧ strHas ("/ 4") (generate (.sphere 1) .ssaa2x2) = false := by
  decide

end SdfGen
